import Mathlib

/-!
Verification of the access-resolution and visibility-predicate engine of
`tududi` (`backend/services/permissionsService.js`), as a shallow embedding.

The store state (projects, tasks, notes, permission grants, admin flags)
is modelled as explicit lists; Sequelize `findOne` becomes `List.find?`,
`findAll` becomes `List.filter`, and the returned `where`-clauses of
`ownershipOrPermissionWhere` become an explicit syntax tree (`WhereClause`)
together with evaluation functions giving their semantics on rows.
-/


namespace Tududi

/-- A row of the `projects` table, restricted to the columns the service reads. -/
structure ProjectRec where
  id : Nat
  uid : String
  user_id : Nat
deriving Repr, DecidableEq

/-- A row of the `tasks` table, restricted to the columns the service reads.
`project_id` is nullable. -/
structure TaskRec where
  uid : String
  user_id : Nat
  project_id : Option Nat
deriving Repr, DecidableEq

/-- A row of the `notes` table, restricted to the columns the service reads.
`project_id` is nullable. -/
structure NoteRec where
  uid : String
  user_id : Nat
  project_id : Option Nat
deriving Repr, DecidableEq

/-- A row of the `permissions` table: an explicit sharing grant. -/
structure PermissionRec where
  user_id : Nat
  resource_type : String
  resource_uid : String
  access_level : String
deriving Repr, DecidableEq

/-- A snapshot of the database visible to the service, plus the admin set
consulted by `rolesService.isAdmin`. -/
structure Store where
  admins : List Nat
  projects : List ProjectRec
  tasks : List TaskRec
  notes : List NoteRec
  permissions : List PermissionRec
deriving Repr

/-- `rolesService.isAdmin`: an external boolean capability lookup. -/
def isAdmin (s : Store) (userId : Nat) : Bool :=
  s.admins.contains userId

/-- The `ACCESS` constant object of the source: access levels are plain strings. -/
def ACCESS.NONE : String := "none"

def ACCESS.RO : String := "ro"

def ACCESS.RW : String := "rw"

def ACCESS.ADMIN : String := "admin"

/-- JS `Array.from(new Set(xs))`: deduplicate keeping first occurrences. -/
def dedupFirst : List String → List String
  | [] => []
  | x :: xs => x :: dedupFirst (xs.filter (fun y => !(y == x)))
termination_by l => l.length
decreasing_by
  exact Nat.lt_succ_of_le (List.length_filter_le _ _)

/-- `getSharedUidsForUser`: the deduplicated `resource_uid`s of all grants to
`userId` on resources of type `resourceType`. -/
def getSharedUidsForUser (s : Store) (resourceType : String) (userId : Nat) :
    List String :=
  dedupFirst
    ((s.permissions.filter
        (fun p => p.user_id == userId && p.resource_type == resourceType)).map
      (fun p => p.resource_uid))

/-- The `Permission.findOne` query at the end of `getAccess` (lines 86-94). -/
def findPermission (s : Store) (userId : Nat) (resourceType resourceUid : String) :
    Option PermissionRec :=
  s.permissions.find?
    (fun p =>
      p.user_id == userId && p.resource_type == resourceType &&
        p.resource_uid == resourceUid)

/-- The explicit-grant fallback of `getAccess` (lines 85-95):
`perm ? perm.access_level : ACCESS.NONE`. -/
def sharedPermissionLevel (s : Store) (userId : Nat)
    (resourceType resourceUid : String) : String :=
  match findPermission s userId resourceType resourceUid with
  | some perm => perm.access_level
  | none => ACCESS.NONE

/-- `getAccess` (lines 17-96): effective access level of `userId` on the
resource of type `resourceType` with external id `resourceUid`.
The recursive call mirrors lines 46-50 / 73-77 of the source and is made
only with resource type `"project"`, whose branch does not recurse. -/
def getAccess (s : Store) (userId : Nat) (resourceType resourceUid : String) :
    String :=
  if isAdmin s userId then ACCESS.ADMIN
  else if h1 : resourceType = "project" then
    match s.projects.find? (fun p => p.uid == resourceUid) with
    | none => ACCESS.NONE
    | some proj =>
      if proj.user_id == userId then ACCESS.RW
      else sharedPermissionLevel s userId resourceType resourceUid
  else if h2 : resourceType = "task" then
    match s.tasks.find? (fun t => t.uid == resourceUid) with
    | none => ACCESS.NONE
    | some t =>
      if t.user_id == userId then ACCESS.RW
      else
        let projectAccess :=
          match t.project_id with
          | some pid =>
            match s.projects.find? (fun p => p.id == pid) with
            | some project => getAccess s userId "project" project.uid
            | none => ACCESS.NONE
          | none => ACCESS.NONE
        if projectAccess != ACCESS.NONE then projectAccess
        else sharedPermissionLevel s userId resourceType resourceUid
  else if h3 : resourceType = "note" then
    match s.notes.find? (fun n => n.uid == resourceUid) with
    | none => ACCESS.NONE
    | some n =>
      if n.user_id == userId then ACCESS.RW
      else
        let projectAccess :=
          match n.project_id with
          | some pid =>
            match s.projects.find? (fun p => p.id == pid) with
            | some project => getAccess s userId "project" project.uid
            | none => ACCESS.NONE
          | none => ACCESS.NONE
        if projectAccess != ACCESS.NONE then projectAccess
        else sharedPermissionLevel s userId resourceType resourceUid
  else sharedPermissionLevel s userId resourceType resourceUid
termination_by (if resourceType = "project" then 0 else 1)
decreasing_by
  all_goals simp [h1]

/-- Fuel-indexed variant of `getAccess`, used to state the recursion-depth
bound: the recursive call spends one unit of fuel, and exhausted fuel
returns `ACCESS.NONE`. -/
def getAccessFuel : Nat → Store → Nat → String → String → String
  | 0, _, _, _, _ => ACCESS.NONE
  | fuel + 1, s, userId, resourceType, resourceUid =>
    if isAdmin s userId then ACCESS.ADMIN
    else if resourceType = "project" then
      match s.projects.find? (fun p => p.uid == resourceUid) with
      | none => ACCESS.NONE
      | some proj =>
        if proj.user_id == userId then ACCESS.RW
        else sharedPermissionLevel s userId resourceType resourceUid
    else if resourceType = "task" then
      match s.tasks.find? (fun t => t.uid == resourceUid) with
      | none => ACCESS.NONE
      | some t =>
        if t.user_id == userId then ACCESS.RW
        else
          let projectAccess :=
            match t.project_id with
            | some pid =>
              match s.projects.find? (fun p => p.id == pid) with
              | some project => getAccessFuel fuel s userId "project" project.uid
              | none => ACCESS.NONE
            | none => ACCESS.NONE
          if projectAccess != ACCESS.NONE then projectAccess
          else sharedPermissionLevel s userId resourceType resourceUid
    else if resourceType = "note" then
      match s.notes.find? (fun n => n.uid == resourceUid) with
      | none => ACCESS.NONE
      | some n =>
        if n.user_id == userId then ACCESS.RW
        else
          let projectAccess :=
            match n.project_id with
            | some pid =>
              match s.projects.find? (fun p => p.id == pid) with
              | some project => getAccessFuel fuel s userId "project" project.uid
              | none => ACCESS.NONE
            | none => ACCESS.NONE
          if projectAccess != ACCESS.NONE then projectAccess
          else sharedPermissionLevel s userId resourceType resourceUid
    else sharedPermissionLevel s userId resourceType resourceUid

/-- One condition of a Sequelize `where` clause produced by
`ownershipOrPermissionWhere`. `uidNull` is the `\x7b uid: null \x7d`
placeholder pushed for non-hierarchical types when `sharedUids` is empty. -/
inductive Cond where
  | userIdEq : Nat → Cond
  | uidIn : List String → Cond
  | projectIdIn : List Nat → Cond
  | uidNull : Cond
deriving Repr, DecidableEq

/-- A `where` clause: either the unrestricted empty clause returned for
admins, or an `Op.or` disjunction of conditions. -/
inductive WhereClause where
  | unrestricted : WhereClause
  | disj : List Cond → WhereClause
deriving Repr, DecidableEq

/-- `ownershipOrPermissionWhere` (lines 98-145): the visibility filter for
listing resources of `resourceType` readable by `userId`. -/
def ownershipOrPermissionWhere (s : Store) (resourceType : String)
    (userId : Nat) : WhereClause :=
  if isAdmin s userId then WhereClause.unrestricted
  else
    let sharedUids := getSharedUidsForUser s resourceType userId
    if resourceType = "task" || resourceType = "note" then
      let sharedProjectUids := getSharedUidsForUser s "project" userId
      let sharedProjectIds :=
        if sharedProjectUids.length > 0 then
          (s.projects.filter (fun p => sharedProjectUids.contains p.uid)).map
            (fun p => p.id)
        else []
      let conditions := [Cond.userIdEq userId]
      let conditions :=
        if sharedUids.length > 0 then conditions ++ [Cond.uidIn sharedUids]
        else conditions
      let conditions :=
        if sharedProjectIds.length > 0 then
          conditions ++ [Cond.projectIdIn sharedProjectIds]
        else conditions
      WhereClause.disj conditions
    else
      WhereClause.disj
        [Cond.userIdEq userId,
          if sharedUids.length > 0 then Cond.uidIn sharedUids else Cond.uidNull]

/-- Semantics of one condition on a `projects` row. A project row has no
`project_id` column and a non-null `uid`, so `projectIdIn` and `uidNull`
match nothing. -/
def condHoldsProject (c : Cond) (p : ProjectRec) : Bool :=
  match c with
  | Cond.userIdEq u => p.user_id == u
  | Cond.uidIn uids => uids.contains p.uid
  | Cond.projectIdIn _ => false
  | Cond.uidNull => false

/-- Semantics of one condition on a `tasks` row (`uid` is non-null). -/
def condHoldsTask (c : Cond) (t : TaskRec) : Bool :=
  match c with
  | Cond.userIdEq u => t.user_id == u
  | Cond.uidIn uids => uids.contains t.uid
  | Cond.projectIdIn ids =>
    match t.project_id with
    | some pid => ids.contains pid
    | none => false
  | Cond.uidNull => false

/-- Semantics of one condition on a `notes` row (`uid` is non-null). -/
def condHoldsNote (c : Cond) (n : NoteRec) : Bool :=
  match c with
  | Cond.userIdEq u => n.user_id == u
  | Cond.uidIn uids => uids.contains n.uid
  | Cond.projectIdIn ids =>
    match n.project_id with
    | some pid => ids.contains pid
    | none => false
  | Cond.uidNull => false

/-- Semantics of a whole `where` clause on a `projects` row. -/
def whereHoldsProject (w : WhereClause) (p : ProjectRec) : Bool :=
  match w with
  | WhereClause.unrestricted => true
  | WhereClause.disj cs => cs.any (fun c => condHoldsProject c p)

/-- Semantics of a whole `where` clause on a `tasks` row. -/
def whereHoldsTask (w : WhereClause) (t : TaskRec) : Bool :=
  match w with
  | WhereClause.unrestricted => true
  | WhereClause.disj cs => cs.any (fun c => condHoldsTask c t)

/-- Semantics of a whole `where` clause on a `notes` row. -/
def whereHoldsNote (w : WhereClause) (n : NoteRec) : Bool :=
  match w with
  | WhereClause.unrestricted => true
  | WhereClause.disj cs => cs.any (fun c => condHoldsNote c n)

/-- The internal project ids reachable through project grants: ids of existing
projects whose uid is shared to the user (the `sharedProjectIds` of the
source, with the emptiness guard already resolved). -/
def sharedProjectIdList (s : Store) (u : Nat) : List Nat :=
  (s.projects.filter
    (fun p => decide (p.uid ∈ getSharedUidsForUser s "project" u))).map
      (fun p => p.id)

/-- The scenario store of the spec: user 0 owns project `p1` (internal id 1);
task `t1` belongs to that project and is owned by user 1; user 2 holds an
`ro` grant on `p1`; user 3 is unrelated. Nobody is an admin. -/
def scenarioStore : Store :=
  { admins := []
    projects := [⟨1, "p1", 0⟩]
    tasks := [⟨"t1", 1, some 1⟩]
    notes := []
    permissions := [⟨2, "project", "p1", "ro"⟩] }

/-- A store holding a grant on a project uid for which no project row
exists. -/
def ghostGrantStore : Store :=
  { admins := []
    projects := []
    tasks := []
    notes := []
    permissions := [⟨1, "project", "x", "ro"⟩] }

/-- A store where user 1 is an admin and also owns project `p`. -/
def adminStore : Store :=
  { admins := [1]
    projects := [⟨1, "p", 1⟩]
    tasks := []
    notes := []
    permissions := [] }

/-- A store holding a grant whose stored level is outside the `ACCESS`
enumeration, plus a grant on an unrecognized resource type. -/
def bogusGrantStore : Store :=
  { admins := []
    projects := [⟨1, "p", 5⟩]
    tasks := []
    notes := []
    permissions := [⟨1, "project", "p", "totally-bogus"⟩, ⟨1, "tag", "x", "admin"⟩] }

/-- A store holding a task with no parent project, owned by user 7, plus a
task grant to user 1 whose stored level is outside the `ACCESS`
enumeration. -/
def taskGrantStore : Store :=
  { admins := []
    projects := []
    tasks := [⟨"t9", 7, none⟩]
    notes := []
    permissions := [⟨1, "task", "t9", "weird-level"⟩] }

/-- The list of conditions of a `where` clause (empty for the unrestricted
clause). -/
def condsOf : WhereClause → List Cond
  | WhereClause.unrestricted => []
  | WhereClause.disj cs => cs

/-! ### Helper lemmas about the embedded operations -/

/-- Membership is invariant under first-occurrence deduplication. -/
theorem mem_dedupFirst (a : String) (l : List String) :
    a ∈ dedupFirst l ↔ a ∈ l := by
  induction l using dedupFirst.induct with
  | case1 => simp [dedupFirst]
  | case2 x xs ih =>
    rw [dedupFirst]
    by_cases hax : a = x
    · simp [hax]
    · simp [hax, ih, List.mem_filter]

/-- In a list whose images under `f` are pairwise distinct, searching for the
image of a member finds exactly that member. -/
theorem find?_beq_of_mem_of_nodup {α β : Type} [BEq β] [LawfulBEq β]
    (f : α → β) (l : List α) (x : α) (hnd : (l.map f).Nodup) (hx : x ∈ l) :
    l.find? (fun y => f y == f x) = some x := by
  induction l with
  | nil => cases hx
  | cons a l ih =>
    rw [List.map_cons, List.nodup_cons] at hnd
    by_cases h : f a = f x
    · have hxa : x = a := by
        rcases List.mem_cons.mp hx with h1 | h1
        · exact h1
        · exact absurd (h ▸ List.mem_map_of_mem f h1) hnd.1
      rw [hxa]
      exact List.find?_cons_of_pos _ (by simp [h])
    · have hx' : x ∈ l := by
        rcases List.mem_cons.mp hx with h1 | h1
        · exact absurd (congrArg f h1.symm) h
        · exact h1
      rw [List.find?_cons_of_neg _ (by simp [h])]
      exact ih hnd.2 hx'

/-- A grant found by `findPermission` contributes its uid to
`getSharedUidsForUser` for the same user and type. -/
theorem mem_shared_of_findPermission (s : Store) (u : Nat) (t uid : String)
    (g : PermissionRec) (h : findPermission s u t uid = some g) :
    uid ∈ getSharedUidsForUser s t u := by
  have hmem : g ∈ s.permissions := List.mem_of_find?_eq_some h
  have hp := List.find?_some h
  simp only [Bool.and_eq_true, beq_iff_eq] at hp
  unfold getSharedUidsForUser
  rw [mem_dedupFirst]
  apply List.mem_map.mpr
  refine ⟨g, List.mem_filter.mpr ⟨hmem, ?_⟩, hp.2⟩
  simp [hp.1.1, hp.1.2]

/-- If a uid is not among the user's shared uids for a type, then no explicit
grant row matches that triple. -/
theorem findPermission_eq_none_of_not_shared (s : Store) (u : Nat)
    (t uid : String) (h : uid ∉ getSharedUidsForUser s t u) :
    findPermission s u t uid = none := by
  cases hf : findPermission s u t uid with
  | none => rfl
  | some g => exact absurd (mem_shared_of_findPermission s u t uid g hf) h

/-- Under the same hypothesis the explicit-grant fallback returns `NONE`. -/
theorem sharedPermissionLevel_eq_none_of_not_shared (s : Store) (u : Nat)
    (t uid : String) (h : uid ∉ getSharedUidsForUser s t u) :
    sharedPermissionLevel s u t uid = ACCESS.NONE := by
  unfold sharedPermissionLevel
  rw [findPermission_eq_none_of_not_shared s u t uid h]

/-- Unfolding of `getAccess` for resource type `"project"` (lines 21-28):
no recursive call occurs in this branch. -/
theorem getAccess_project (s : Store) (u : Nat) (uid : String) :
    getAccess s u "project" uid =
      if isAdmin s u then ACCESS.ADMIN
      else
        match s.projects.find? (fun p => p.uid == uid) with
        | none => ACCESS.NONE
        | some proj =>
          if proj.user_id == u then ACCESS.RW
          else sharedPermissionLevel s u "project" uid := by
  rw [getAccess]
  simp

/-- Unfolding of `getAccess` for resource type `"task"` (lines 29-55). -/
theorem getAccess_task (s : Store) (u : Nat) (uid : String) :
    getAccess s u "task" uid =
      if isAdmin s u then ACCESS.ADMIN
      else
        match s.tasks.find? (fun t => t.uid == uid) with
        | none => ACCESS.NONE
        | some t =>
          if t.user_id == u then ACCESS.RW
          else
            let projectAccess :=
              match t.project_id with
              | some pid =>
                match s.projects.find? (fun p => p.id == pid) with
                | some project => getAccess s u "project" project.uid
                | none => ACCESS.NONE
              | none => ACCESS.NONE
            if projectAccess != ACCESS.NONE then projectAccess
            else sharedPermissionLevel s u "task" uid := by
  rw [getAccess]
  simp

/-- Unfolding of `getAccess` for resource type `"note"` (lines 56-83). -/
theorem getAccess_note (s : Store) (u : Nat) (uid : String) :
    getAccess s u "note" uid =
      if isAdmin s u then ACCESS.ADMIN
      else
        match s.notes.find? (fun n => n.uid == uid) with
        | none => ACCESS.NONE
        | some n =>
          if n.user_id == u then ACCESS.RW
          else
            let projectAccess :=
              match n.project_id with
              | some pid =>
                match s.projects.find? (fun p => p.id == pid) with
                | some project => getAccess s u "project" project.uid
                | none => ACCESS.NONE
              | none => ACCESS.NONE
            if projectAccess != ACCESS.NONE then projectAccess
            else sharedPermissionLevel s u "note" uid := by
  rw [getAccess]
  simp

/-- Unfolding of `getAccess` for an unrecognized resource type: straight to
the explicit-grant fallback. -/
theorem getAccess_other (s : Store) (u : Nat) (t uid : String)
    (ht1 : t ≠ "project") (ht2 : t ≠ "task") (ht3 : t ≠ "note") :
    getAccess s u t uid =
      if isAdmin s u then ACCESS.ADMIN
      else sharedPermissionLevel s u t uid := by
  rw [getAccess]
  simp [ht1, ht2, ht3]

/-- What a false visibility predicate for type `"project"` tells us about a
project row: the user is not its owner and its uid is not shared to them. -/
theorem whereProject_false_facts (s : Store) (u : Nat) (p : ProjectRec)
    (hadm : isAdmin s u = false)
    (hfalse : whereHoldsProject (ownershipOrPermissionWhere s "project" u) p = false) :
    p.user_id ≠ u ∧ p.uid ∉ getSharedUidsForUser s "project" u := by
  simp [ownershipOrPermissionWhere, hadm, whereHoldsProject, condHoldsProject] at hfalse
  refine ⟨hfalse.1, ?_⟩
  intro hmem
  have hlen : 0 < (getSharedUidsForUser s "project" u).length :=
    List.length_pos.mpr (List.ne_nil_of_mem hmem)
  rw [if_pos hlen] at hfalse
  have h2 := hfalse.2
  simp at h2
  exact h2 hmem

/-- What a false visibility predicate for type `"task"` tells us about a task
row: not owned, uid not shared, and its parent project id (if any) is not the
id of a project shared to the user. -/
theorem whereTask_false_facts (s : Store) (u : Nat) (x : TaskRec)
    (hadm : isAdmin s u = false)
    (hfalse : whereHoldsTask (ownershipOrPermissionWhere s "task" u) x = false) :
    x.user_id ≠ u ∧
    x.uid ∉ getSharedUidsForUser s "task" u ∧
    (∀ pid, x.project_id = some pid → pid ∉ sharedProjectIdList s u) := by
  simp [ownershipOrPermissionWhere, hadm, whereHoldsTask, condHoldsTask] at hfalse
  refine ⟨?_, ?_, ?_⟩
  · have h1 := hfalse (Cond.userIdEq u) (by (repeat' split) <;> simp_all)
    simpa using h1
  · intro hmem
    have hlen : 0 < (getSharedUidsForUser s "task" u).length :=
      List.length_pos.mpr (List.ne_nil_of_mem hmem)
    have h2 := hfalse (Cond.uidIn (getSharedUidsForUser s "task" u))
      (by (repeat' split) <;> simp_all)
    simp at h2
    exact h2 hmem
  · intro pid hpid hmem
    obtain ⟨proj, hprojf, hprojid⟩ := List.mem_map.mp hmem
    have hspu : proj.uid ∈ getSharedUidsForUser s "project" u := by
      have := (List.mem_filter.mp hprojf).2
      simpa using this
    have hlenspu : 0 < (getSharedUidsForUser s "project" u).length :=
      List.length_pos.mpr (List.ne_nil_of_mem hspu)
    have hlenspi : 0 < (sharedProjectIdList s u).length :=
      List.length_pos.mpr (List.ne_nil_of_mem hmem)
    have h3 := hfalse (Cond.projectIdIn (sharedProjectIdList s u))
      (by (repeat' split) <;> simp_all [sharedProjectIdList])
    simp [hpid] at h3
    exact h3 hmem

/-- What a false visibility predicate for type `"note"` tells us about a note
row: not owned, uid not shared, and its parent project id (if any) is not the
id of a project shared to the user. -/
theorem whereNote_false_facts (s : Store) (u : Nat) (x : NoteRec)
    (hadm : isAdmin s u = false)
    (hfalse : whereHoldsNote (ownershipOrPermissionWhere s "note" u) x = false) :
    x.user_id ≠ u ∧
    x.uid ∉ getSharedUidsForUser s "note" u ∧
    (∀ pid, x.project_id = some pid → pid ∉ sharedProjectIdList s u) := by
  simp [ownershipOrPermissionWhere, hadm, whereHoldsNote, condHoldsNote] at hfalse
  refine ⟨?_, ?_, ?_⟩
  · have h1 := hfalse (Cond.userIdEq u) (by (repeat' split) <;> simp_all)
    simpa using h1
  · intro hmem
    have hlen : 0 < (getSharedUidsForUser s "note" u).length :=
      List.length_pos.mpr (List.ne_nil_of_mem hmem)
    have h2 := hfalse (Cond.uidIn (getSharedUidsForUser s "note" u))
      (by (repeat' split) <;> simp_all)
    simp at h2
    exact h2 hmem
  · intro pid hpid hmem
    obtain ⟨proj, hprojf, hprojid⟩ := List.mem_map.mp hmem
    have hspu : proj.uid ∈ getSharedUidsForUser s "project" u := by
      have := (List.mem_filter.mp hprojf).2
      simpa using this
    have hlenspu : 0 < (getSharedUidsForUser s "project" u).length :=
      List.length_pos.mpr (List.ne_nil_of_mem hspu)
    have hlenspi : 0 < (sharedProjectIdList s u).length :=
      List.length_pos.mpr (List.ne_nil_of_mem hmem)
    have h3 := hfalse (Cond.projectIdIn (sharedProjectIdList s u))
      (by (repeat' split) <;> simp_all [sharedProjectIdList])
    simp [hpid] at h3
    exact h3 hmem

/-- Core of predicate-resolver consistency for projects: a project row the
filter rejects resolves to no access. -/
theorem accessNone_of_filterFalse_project (s : Store) (u : Nat)
    (hadm : isAdmin s u = false) (p : ProjectRec) (hp : p ∈ s.projects)
    (hndp : (s.projects.map ProjectRec.uid).Nodup)
    (hfalse : whereHoldsProject (ownershipOrPermissionWhere s "project" u) p = false) :
    getAccess s u "project" p.uid = ACCESS.NONE := by
  obtain ⟨hown, hsu⟩ := whereProject_false_facts s u p hadm hfalse
  have hfind : s.projects.find? (fun q => q.uid == p.uid) = some p :=
    find?_beq_of_mem_of_nodup ProjectRec.uid s.projects p hndp hp
  have hfallback : sharedPermissionLevel s u "project" p.uid = ACCESS.NONE :=
    sharedPermissionLevel_eq_none_of_not_shared s u "project" p.uid hsu
  rw [getAccess_project, hadm, hfind]
  simp [hown, hfallback]

/-- Core of predicate-resolver consistency for tasks: a task row the filter
rejects resolves to no access, provided its parent project (when looked up by
internal id) is not owned by the user. -/
theorem accessNone_of_filterFalse_task (s : Store) (u : Nat)
    (hadm : isAdmin s u = false) (x : TaskRec) (hx : x ∈ s.tasks)
    (hndt : (s.tasks.map TaskRec.uid).Nodup)
    (hndp : (s.projects.map ProjectRec.uid).Nodup)
    (hpar : ∀ pid proj, x.project_id = some pid →
      s.projects.find? (fun p => p.id == pid) = some proj → proj.user_id ≠ u)
    (hfalse : whereHoldsTask (ownershipOrPermissionWhere s "task" u) x = false) :
    getAccess s u "task" x.uid = ACCESS.NONE := by
  obtain ⟨hown, hsu, hspi⟩ := whereTask_false_facts s u x hadm hfalse
  have hfind : s.tasks.find? (fun t => t.uid == x.uid) = some x :=
    find?_beq_of_mem_of_nodup TaskRec.uid s.tasks x hndt hx
  have hfallback : sharedPermissionLevel s u "task" x.uid = ACCESS.NONE :=
    sharedPermissionLevel_eq_none_of_not_shared s u "task" x.uid hsu
  rw [getAccess_task, hadm, hfind]
  cases hpid : x.project_id with
  | none => simp [hown, hpid, hfallback]
  | some pid =>
    cases hfp : s.projects.find? (fun p => p.id == pid) with
    | none => simp [hown, hpid, hfp, hfallback]
    | some proj =>
      have hprojmem : proj ∈ s.projects := List.mem_of_find?_eq_some hfp
      have hprojid : proj.id = pid := by simpa using List.find?_some hfp
      have hpuid : s.projects.find? (fun p => p.uid == proj.uid) = some proj :=
        find?_beq_of_mem_of_nodup ProjectRec.uid s.projects proj hndp hprojmem
      have hnotown : proj.user_id ≠ u := hpar pid proj hpid hfp
      have hinner : getAccess s u "project" proj.uid =
          sharedPermissionLevel s u "project" proj.uid := by
        rw [getAccess_project, hadm, hpuid]
        simp [hnotown]
      cases hg : findPermission s u "project" proj.uid with
      | none =>
        have hnone : sharedPermissionLevel s u "project" proj.uid = ACCESS.NONE := by
          simp [sharedPermissionLevel, hg]
        simp [hown, hpid, hfp, hinner, hnone, hfallback]
      | some g =>
        by_cases hlvl : g.access_level = ACCESS.NONE
        · have hnone : sharedPermissionLevel s u "project" proj.uid = ACCESS.NONE := by
            simp [sharedPermissionLevel, hg, hlvl]
          simp [hown, hpid, hfp, hinner, hnone, hfallback]
        · exfalso
          have hspu := mem_shared_of_findPermission s u "project" proj.uid g hg
          exact hspi pid hpid
            (List.mem_map.mpr
              ⟨proj, List.mem_filter.mpr ⟨hprojmem, by simp [hspu]⟩, hprojid⟩)

/-- Core of predicate-resolver consistency for notes: a note row the filter
rejects resolves to no access, provided its parent project (when looked up by
internal id) is not owned by the user. -/
theorem accessNone_of_filterFalse_note (s : Store) (u : Nat)
    (hadm : isAdmin s u = false) (x : NoteRec) (hx : x ∈ s.notes)
    (hndn : (s.notes.map NoteRec.uid).Nodup)
    (hndp : (s.projects.map ProjectRec.uid).Nodup)
    (hpar : ∀ pid proj, x.project_id = some pid →
      s.projects.find? (fun p => p.id == pid) = some proj → proj.user_id ≠ u)
    (hfalse : whereHoldsNote (ownershipOrPermissionWhere s "note" u) x = false) :
    getAccess s u "note" x.uid = ACCESS.NONE := by
  obtain ⟨hown, hsu, hspi⟩ := whereNote_false_facts s u x hadm hfalse
  have hfind : s.notes.find? (fun n => n.uid == x.uid) = some x :=
    find?_beq_of_mem_of_nodup NoteRec.uid s.notes x hndn hx
  have hfallback : sharedPermissionLevel s u "note" x.uid = ACCESS.NONE :=
    sharedPermissionLevel_eq_none_of_not_shared s u "note" x.uid hsu
  rw [getAccess_note, hadm, hfind]
  cases hpid : x.project_id with
  | none => simp [hown, hpid, hfallback]
  | some pid =>
    cases hfp : s.projects.find? (fun p => p.id == pid) with
    | none => simp [hown, hpid, hfp, hfallback]
    | some proj =>
      have hprojmem : proj ∈ s.projects := List.mem_of_find?_eq_some hfp
      have hprojid : proj.id = pid := by simpa using List.find?_some hfp
      have hpuid : s.projects.find? (fun p => p.uid == proj.uid) = some proj :=
        find?_beq_of_mem_of_nodup ProjectRec.uid s.projects proj hndp hprojmem
      have hnotown : proj.user_id ≠ u := hpar pid proj hpid hfp
      have hinner : getAccess s u "project" proj.uid =
          sharedPermissionLevel s u "project" proj.uid := by
        rw [getAccess_project, hadm, hpuid]
        simp [hnotown]
      cases hg : findPermission s u "project" proj.uid with
      | none =>
        have hnone : sharedPermissionLevel s u "project" proj.uid = ACCESS.NONE := by
          simp [sharedPermissionLevel, hg]
        simp [hown, hpid, hfp, hinner, hnone, hfallback]
      | some g =>
        by_cases hlvl : g.access_level = ACCESS.NONE
        · have hnone : sharedPermissionLevel s u "project" proj.uid = ACCESS.NONE := by
            simp [sharedPermissionLevel, hg, hlvl]
          simp [hown, hpid, hfp, hinner, hnone, hfallback]
        · exfalso
          have hspu := mem_shared_of_findPermission s u "project" proj.uid g hg
          exact hspi pid hpid
            (List.mem_map.mpr
              ⟨proj, List.mem_filter.mpr ⟨hprojmem, by simp [hspu]⟩, hprojid⟩)

/-- C1 (amended): for a non-admin user and per-type-distinct uids, a resource
rejected by the visibility predicate resolves to `NONE` — except a task or
note whose parent project is owned by the user, which `getAccess` reaches by
inheritance although `ownershipOrPermissionWhere` has no owned-project
clause. -/
theorem predicate_resolver_consistency_amended (s : Store) (u : Nat)
    (hadm : isAdmin s u = false)
    (hndp : (s.projects.map ProjectRec.uid).Nodup)
    (hndt : (s.tasks.map TaskRec.uid).Nodup)
    (hndn : (s.notes.map NoteRec.uid).Nodup) :
    (∀ p ∈ s.projects,
      whereHoldsProject (ownershipOrPermissionWhere s "project" u) p = false →
      getAccess s u "project" p.uid = ACCESS.NONE) ∧
    (∀ x ∈ s.tasks,
      (∀ pid proj, x.project_id = some pid →
        s.projects.find? (fun p => p.id == pid) = some proj → proj.user_id ≠ u) →
      whereHoldsTask (ownershipOrPermissionWhere s "task" u) x = false →
      getAccess s u "task" x.uid = ACCESS.NONE) ∧
    (∀ x ∈ s.notes,
      (∀ pid proj, x.project_id = some pid →
        s.projects.find? (fun p => p.id == pid) = some proj → proj.user_id ≠ u) →
      whereHoldsNote (ownershipOrPermissionWhere s "note" u) x = false →
      getAccess s u "note" x.uid = ACCESS.NONE) := by
  refine ⟨?_, ?_, ?_⟩
  · intro p hp hfalse
    exact accessNone_of_filterFalse_project s u hadm p hp hndp hfalse
  · intro x hx hpar hfalse
    exact accessNone_of_filterFalse_task s u hadm x hx hndt hndp hpar hfalse
  · intro x hx hpar hfalse
    exact accessNone_of_filterFalse_note s u hadm x hx hndn hndp hpar hfalse

/-- C1 counterexample: in the scenario store, task `t1` fails user 0's task
visibility predicate (user 0 neither owns it, nor holds any grant), yet
`getAccess` resolves it to `rw` through the parent project user 0 owns. The
claim "predicate false implies resolve = NONE" is therefore false as
stated. -/
theorem predicate_resolver_consistency_cex :
    (⟨"t1", 1, some 1⟩ : TaskRec) ∈ scenarioStore.tasks ∧
    whereHoldsTask (ownershipOrPermissionWhere scenarioStore "task" 0)
      ⟨"t1", 1, some 1⟩ = false ∧
    getAccess scenarioStore 0 "task" "t1" ≠ ACCESS.NONE := by
  refine ⟨by simp [scenarioStore], ?_, ?_⟩
  · simp [ownershipOrPermissionWhere, scenarioStore, isAdmin, getSharedUidsForUser,
      dedupFirst, whereHoldsTask, condHoldsTask]
  · simp [getAccess, scenarioStore, isAdmin, sharedPermissionLevel, findPermission,
      List.find?, ACCESS.NONE, ACCESS.RW, ACCESS.ADMIN]

/-- C1 witness: the amended theorem applied to the scenario store for the
unrelated user 3, whose predicate rejects task `t1` and whose resolution is
indeed `NONE`. -/
theorem predicate_resolver_consistency_witness :
    getAccess scenarioStore 3 "task" "t1" = ACCESS.NONE := by
  have h := predicate_resolver_consistency_amended scenarioStore 3
    (by simp [isAdmin, scenarioStore]) (by simp [scenarioStore])
    (by simp [scenarioStore]) (by simp [scenarioStore])
  have h2 := h.2.1 ⟨"t1", 1, some 1⟩ (by simp [scenarioStore])
    (by
      intro pid proj hpid hfp
      simp [scenarioStore] at hpid
      subst hpid
      simp [scenarioStore, List.find?] at hfp
      subst hfp
      simp)
    (by
      simp [ownershipOrPermissionWhere, scenarioStore, isAdmin, getSharedUidsForUser,
        dedupFirst, whereHoldsTask, condHoldsTask])
  simpa using h2

/-- C2 (amended): for a non-admin user, a uid with no matching resource row
of a recognized type resolves to `NONE` immediately — explicit grants are NOT
consulted for recognized types (the `if (!row) return ACCESS.NONE` early
returns); only unrecognized types fall through to the explicit-grant
lookup. No error is possible: `getAccess` is total. -/
theorem nonexistent_resource_access (s : Store) (u : Nat) (uid : String)
    (hadm : isAdmin s u = false) :
    (s.projects.find? (fun p => p.uid == uid) = none →
      getAccess s u "project" uid = ACCESS.NONE) ∧
    (s.tasks.find? (fun t => t.uid == uid) = none →
      getAccess s u "task" uid = ACCESS.NONE) ∧
    (s.notes.find? (fun n => n.uid == uid) = none →
      getAccess s u "note" uid = ACCESS.NONE) ∧
    (∀ t, t ≠ "project" → t ≠ "task" → t ≠ "note" →
      getAccess s u t uid = sharedPermissionLevel s u t uid) := by
  refine ⟨?_, ?_, ?_, ?_⟩
  · intro hfind
    rw [getAccess_project, hadm, hfind]
    simp
  · intro hfind
    rw [getAccess_task, hadm, hfind]
    simp
  · intro hfind
    rw [getAccess_note, hadm, hfind]
    simp
  · intro t h1 h2 h3
    rw [getAccess_other s u t uid h1 h2 h3, hadm]
    simp

/-- C2 counterexample: user 1 holds an `ro` grant on project uid `x`, no
project row with uid `x` exists, yet `getAccess` returns `none` rather than
the grant's level `ro`: for recognized types the missing-row branch returns
`NONE` without the defensive grant fallback the claim asserts. -/
theorem nonexistent_resource_access_cex :
    ghostGrantStore.projects = [] ∧
    findPermission ghostGrantStore 1 "project" "x" =
      some ⟨1, "project", "x", "ro"⟩ ∧
    getAccess ghostGrantStore 1 "project" "x" = ACCESS.NONE ∧
    ACCESS.NONE ≠ "ro" := by
  refine ⟨rfl, by simp [findPermission, ghostGrantStore, List.find?], ?_, by simp [ACCESS.NONE]⟩
  simp [getAccess, ghostGrantStore, isAdmin]

/-- C2 witness: the amended theorem applied to the ghost-grant store. -/
theorem nonexistent_resource_access_witness :
    getAccess ghostGrantStore 1 "project" "x" = ACCESS.NONE := by
  have h := nonexistent_resource_access ghostGrantStore 1 "x"
    (by simp [isAdmin, ghostGrantStore])
  exact h.1 (by simp [ghostGrantStore])

/-- C3 (confirmed): an admin user resolves every (type, uid) pair to `ADMIN`
— resource existence is never consulted — and their visibility predicate is
the unrestricted match-everything clause. -/
theorem admin_supremacy (s : Store) (u : Nat) (t uid : String)
    (hadm : isAdmin s u = true) :
    getAccess s u t uid = ACCESS.ADMIN ∧
    ownershipOrPermissionWhere s t u = WhereClause.unrestricted := by
  constructor
  · rw [getAccess]
    simp [hadm]
  · rw [ownershipOrPermissionWhere]
    simp [hadm]

/-- C3 witness: the admin of `adminStore` on a type and uid that do not
exist. -/
theorem admin_supremacy_witness :
    getAccess adminStore 1 "whatever" "missing" = ACCESS.ADMIN ∧
    ownershipOrPermissionWhere adminStore "whatever" 1 =
      WhereClause.unrestricted :=
  admin_supremacy adminStore 1 "whatever" "missing" (by simp [isAdmin, adminStore])

/-- C4 (amended): for a NON-ADMIN user with per-type-distinct uids, owning a
resource of a recognized type resolves it to `RW`, regardless of grants and
of the parent project's resolution (the ownership check short-circuits both).
For an admin owner the admin bypass fires first and returns `ADMIN`, not
`RW`, so the original universal claim fails. -/
theorem ownership_floor (s : Store) (u : Nat) (hadm : isAdmin s u = false)
    (hndp : (s.projects.map ProjectRec.uid).Nodup)
    (hndt : (s.tasks.map TaskRec.uid).Nodup)
    (hndn : (s.notes.map NoteRec.uid).Nodup) :
    (∀ p ∈ s.projects, p.user_id = u →
      getAccess s u "project" p.uid = ACCESS.RW) ∧
    (∀ x ∈ s.tasks, x.user_id = u →
      getAccess s u "task" x.uid = ACCESS.RW) ∧
    (∀ x ∈ s.notes, x.user_id = u →
      getAccess s u "note" x.uid = ACCESS.RW) := by
  refine ⟨?_, ?_, ?_⟩
  · intro p hp hown
    rw [getAccess_project, hadm,
      find?_beq_of_mem_of_nodup ProjectRec.uid s.projects p hndp hp]
    simp [hown]
  · intro x hx hown
    rw [getAccess_task, hadm,
      find?_beq_of_mem_of_nodup TaskRec.uid s.tasks x hndt hx]
    simp [hown]
  · intro x hx hown
    rw [getAccess_note, hadm,
      find?_beq_of_mem_of_nodup NoteRec.uid s.notes x hndn hx]
    simp [hown]

/-- C4 counterexample: user 1 is an admin AND owns project `p`; `getAccess`
returns `admin`, not `rw`, so "owners always resolve to RW" fails for admin
owners (the admin bypass runs before the ownership check). -/
theorem ownership_floor_cex :
    (⟨1, "p", 1⟩ : ProjectRec) ∈ adminStore.projects ∧
    (⟨1, "p", 1⟩ : ProjectRec).user_id = 1 ∧
    getAccess adminStore 1 "project" "p" = ACCESS.ADMIN ∧
    ACCESS.ADMIN ≠ ACCESS.RW := by
  refine ⟨by simp [adminStore], rfl, ?_, by simp [ACCESS.ADMIN, ACCESS.RW]⟩
  rw [getAccess]
  simp [isAdmin, adminStore]

/-- C4 witness: in the scenario store, user 1 owns task `t1` and resolves it
to `rw` even though inheritance from the parent project would give nothing. -/
theorem ownership_floor_witness :
    getAccess scenarioStore 1 "task" "t1" = ACCESS.RW := by
  have h := ownership_floor scenarioStore 1 (by simp [isAdmin, scenarioStore])
    (by simp [scenarioStore]) (by simp [scenarioStore]) (by simp [scenarioStore])
  simpa using h.2.1 ⟨"t1", 1, some 1⟩ (by simp [scenarioStore]) rfl

/-- C5 (confirmed): a non-owned task or note with an existing parent project
inherits the parent project's resolution exactly when that resolution is not
`NONE`, and otherwise falls back to the explicit-grant lookup for the child
itself. Uid distinctness per type and id distinctness for projects pin the
rows the store lookups return. -/
theorem one_level_inheritance (s : Store) (u : Nat) (hadm : isAdmin s u = false)
    (hndt : (s.tasks.map TaskRec.uid).Nodup)
    (hndn : (s.notes.map NoteRec.uid).Nodup)
    (hidp : (s.projects.map ProjectRec.id).Nodup) :
    (∀ x ∈ s.tasks, ∀ p pu (proj : ProjectRec), x.user_id ≠ u →
      x.project_id = some p → proj ∈ s.projects → proj.id = p → proj.uid = pu →
      ((getAccess s u "project" pu ≠ ACCESS.NONE →
        getAccess s u "task" x.uid = getAccess s u "project" pu) ∧
       (getAccess s u "project" pu = ACCESS.NONE →
        getAccess s u "task" x.uid = sharedPermissionLevel s u "task" x.uid))) ∧
    (∀ x ∈ s.notes, ∀ p pu (proj : ProjectRec), x.user_id ≠ u →
      x.project_id = some p → proj ∈ s.projects → proj.id = p → proj.uid = pu →
      ((getAccess s u "project" pu ≠ ACCESS.NONE →
        getAccess s u "note" x.uid = getAccess s u "project" pu) ∧
       (getAccess s u "project" pu = ACCESS.NONE →
        getAccess s u "note" x.uid = sharedPermissionLevel s u "note" x.uid))) := by
  constructor
  · intro x hx p pu proj hown hpid hproj hpidq hpu
    have hfp : s.projects.find? (fun q => q.id == p) = some proj := by
      rw [← hpidq]
      exact find?_beq_of_mem_of_nodup ProjectRec.id s.projects proj hidp hproj
    have hfind : s.tasks.find? (fun t => t.uid == x.uid) = some x :=
      find?_beq_of_mem_of_nodup TaskRec.uid s.tasks x hndt hx
    rw [getAccess_task, hadm, hfind]
    subst hpu
    constructor
    · intro hne
      simp [hown, hpid, hfp, hne]
    · intro heq
      simp [hown, hpid, hfp, heq]
  · intro x hx p pu proj hown hpid hproj hpidq hpu
    have hfp : s.projects.find? (fun q => q.id == p) = some proj := by
      rw [← hpidq]
      exact find?_beq_of_mem_of_nodup ProjectRec.id s.projects proj hidp hproj
    have hfind : s.notes.find? (fun n => n.uid == x.uid) = some x :=
      find?_beq_of_mem_of_nodup NoteRec.uid s.notes x hndn hx
    rw [getAccess_note, hadm, hfind]
    subst hpu
    constructor
    · intro hne
      simp [hown, hpid, hfp, hne]
    · intro heq
      simp [hown, hpid, hfp, heq]

/-- C5 witness: user 2's `ro` grant on project `p1` is inherited by task
`t1`, matching the parent project's own resolution. -/
theorem one_level_inheritance_witness :
    getAccess scenarioStore 2 "task" "t1" = getAccess scenarioStore 2 "project" "p1" ∧
    getAccess scenarioStore 2 "task" "t1" = ACCESS.RO := by
  have h := one_level_inheritance scenarioStore 2 (by simp [isAdmin, scenarioStore])
    (by simp [scenarioStore]) (by simp [scenarioStore]) (by simp [scenarioStore])
  have hproj : getAccess scenarioStore 2 "project" "p1" = ACCESS.RO := by
    simp [getAccess, scenarioStore, isAdmin, sharedPermissionLevel, findPermission,
      List.find?, ACCESS.RO, ACCESS.NONE, ACCESS.RW]
  have h2 := (h.1 ⟨"t1", 1, some 1⟩ (by simp [scenarioStore]) 1 "p1" ⟨1, "p1", 0⟩
    (by simp) rfl (by simp [scenarioStore]) rfl rfl).1
    (by rw [hproj]; simp [ACCESS.RO, ACCESS.NONE])
  exact ⟨by simpa using h2, by simpa [hproj] using h2⟩

/-- C6 (amended): for a NON-ADMIN user, an unrecognized resource type skips
ownership and inheritance entirely: the result is exactly the explicit-grant
lookup (the grant's stored level if a matching grant exists, else `NONE`),
and no error is possible since `getAccess` is total. For an admin user the
admin bypass still fires first and returns `ADMIN`, so the original claim
quantified over every user fails. -/
theorem unrecognized_type_access (s : Store) (u : Nat) (t uid : String)
    (hadm : isAdmin s u = false)
    (h1 : t ≠ "project") (h2 : t ≠ "task") (h3 : t ≠ "note") :
    getAccess s u t uid =
      match findPermission s u t uid with
      | some g => g.access_level
      | none => ACCESS.NONE := by
  rw [getAccess_other s u t uid h1 h2 h3, hadm]
  simp [sharedPermissionLevel]

/-- C6 counterexample: user 1 of `adminStore` is an admin; on the
unrecognized type `tag` with no grant stored, the claim predicts the
explicit-grant lookup result `none`, but `getAccess` returns `admin`. -/
theorem unrecognized_type_access_cex :
    findPermission adminStore 1 "tag" "x" = none ∧
    getAccess adminStore 1 "tag" "x" = ACCESS.ADMIN ∧
    ACCESS.ADMIN ≠ ACCESS.NONE := by
  refine ⟨by simp [findPermission, adminStore], ?_, by simp [ACCESS.ADMIN, ACCESS.NONE]⟩
  rw [getAccess]
  simp [isAdmin, adminStore]

/-- C6 witness: a non-admin's grant on the unrecognized type `tag` is
returned verbatim by the fallback. -/
theorem unrecognized_type_access_witness :
    getAccess bogusGrantStore 1 "tag" "x" = "admin" := by
  have h := unrecognized_type_access bogusGrantStore 1 "tag" "x"
    (by simp [isAdmin, bogusGrantStore]) (by simp) (by simp) (by simp)
  rw [h]
  simp [findPermission, bogusGrantStore, List.find?]

/-- C8 (confirmed): `getAccess` terminates with recursion depth at most 1:
with any fuel budget of at least 2 the fuel-indexed variant agrees with
`getAccess` on every input, and on the `project` type — the only type the
recursive call ever passes — fuel 1 already suffices, because the project
branch performs no recursive call. -/
theorem resolve_depth_bounded_by_one (s : Store) (u : Nat) (t uid : String)
    (n : Nat) :
    getAccessFuel (n + 2) s u t uid = getAccess s u t uid ∧
    getAccessFuel (n + 1) s u "project" uid = getAccess s u "project" uid := by
  have hproj : ∀ (m : Nat) (v : String),
      getAccessFuel (m + 1) s u "project" v = getAccess s u "project" v := by
    intro m v
    rw [getAccess_project]
    simp [getAccessFuel]
  refine ⟨?_, hproj n uid⟩
  by_cases h1 : t = "project"
  · subst h1
    exact hproj (n + 1) uid
  by_cases h2 : t = "task"
  · subst h2
    rw [getAccess_task]
    show getAccessFuel ((n + 1) + 1) s u "task" uid = _
    simp only [getAccessFuel, h1, hproj n]
    simp [getAccess_project]
  by_cases h3 : t = "note"
  · subst h3
    rw [getAccess_note]
    show getAccessFuel ((n + 1) + 1) s u "note" uid = _
    simp only [getAccessFuel, h1, h2, hproj n]
    simp [getAccess_project]
  · rw [getAccess_other s u t uid h1 h2 h3]
    show getAccessFuel ((n + 1) + 1) s u t uid = _
    simp only [getAccessFuel, h1, h2, h3]
    simp [h1, h2, h3]

/-- C9 (confirmed): whenever the explicit-grant fallback is reached —
non-admin user and: an unrecognized type; an existing non-owned project; or
an existing non-owned task or note whose inheritance value is `NONE` — the
stored `access_level` is returned verbatim, with no validation or clamping:
whatever string it is, including `none`, `admin`, or values outside the
enumeration. -/
theorem grant_level_returned_verbatim (s : Store) (u : Nat) (t uid : String)
    (g : PermissionRec) (hadm : isAdmin s u = false)
    (hg : findPermission s u t uid = some g) :
    (t ≠ "project" → t ≠ "task" → t ≠ "note" →
      getAccess s u t uid = g.access_level) ∧
    (∀ proj, t = "project" →
      s.projects.find? (fun p => p.uid == uid) = some proj →
      proj.user_id ≠ u → getAccess s u t uid = g.access_level) ∧
    (∀ x : TaskRec, t = "task" →
      s.tasks.find? (fun y => y.uid == uid) = some x →
      x.user_id ≠ u →
      (match x.project_id with
       | some pid =>
         match s.projects.find? (fun p => p.id == pid) with
         | some project => getAccess s u "project" project.uid
         | none => ACCESS.NONE
       | none => ACCESS.NONE) = ACCESS.NONE →
      getAccess s u t uid = g.access_level) ∧
    (∀ x : NoteRec, t = "note" →
      s.notes.find? (fun y => y.uid == uid) = some x →
      x.user_id ≠ u →
      (match x.project_id with
       | some pid =>
         match s.projects.find? (fun p => p.id == pid) with
         | some project => getAccess s u "project" project.uid
         | none => ACCESS.NONE
       | none => ACCESS.NONE) = ACCESS.NONE →
      getAccess s u t uid = g.access_level) := by
  refine ⟨?_, ?_, ?_, ?_⟩
  · intro h1 h2 h3
    rw [getAccess_other s u t uid h1 h2 h3, hadm]
    simp [sharedPermissionLevel, hg]
  · intro proj ht hfind hnown
    subst ht
    rw [getAccess_project, hadm, hfind]
    simp [hnown, sharedPermissionLevel, hg]
  · intro x ht hfind hnown hinh
    subst ht
    rw [getAccess_task, hadm, hfind]
    simp [hnown, hinh, sharedPermissionLevel, hg]
  · intro x ht hfind hnown hinh
    subst ht
    rw [getAccess_note, hadm, hfind]
    simp [hnown, hinh, sharedPermissionLevel, hg]

/-- C9 witness: a stored level `totally-bogus`, outside the `ACCESS`
enumeration, is returned unchanged for a non-owned existing project, and a
stored level `weird-level` is returned unchanged for a non-owned existing
task whose inheritance value is `NONE`. -/
theorem grant_level_returned_verbatim_witness :
    getAccess bogusGrantStore 1 "project" "p" = "totally-bogus" ∧
    getAccess taskGrantStore 1 "task" "t9" = "weird-level" := by
  constructor
  · have h := grant_level_returned_verbatim bogusGrantStore 1 "project" "p"
      ⟨1, "project", "p", "totally-bogus"⟩
      (by simp [isAdmin, bogusGrantStore])
      (by simp [findPermission, bogusGrantStore, List.find?])
    exact h.2.1 ⟨1, "p", 5⟩ rfl (by simp [bogusGrantStore, List.find?]) (by simp)
  · have h := grant_level_returned_verbatim taskGrantStore 1 "task" "t9"
      ⟨1, "task", "t9", "weird-level"⟩
      (by simp [isAdmin, taskGrantStore])
      (by simp [findPermission, taskGrantStore, List.find?])
    exact h.2.2.1 ⟨"t9", 7, none⟩ rfl
      (by simp [taskGrantStore, List.find?]) (by simp) (by simp)

/-- Shape analysis for the hierarchical-type condition list: every member is
the owner condition, a nonempty uid-IN condition, or a nonempty
project-id-IN condition. -/
theorem cond_shape_of_mem (u : Nat) (su : List String) (spi : List Nat)
    (c : Cond)
    (hc : c ∈ (if 0 < spi.length then
        ((if 0 < su.length then [Cond.userIdEq u, Cond.uidIn su]
          else [Cond.userIdEq u]) ++ [Cond.projectIdIn spi])
      else
        (if 0 < su.length then [Cond.userIdEq u, Cond.uidIn su]
          else [Cond.userIdEq u]))) :
    c = Cond.userIdEq u ∨ (∃ l, l ≠ [] ∧ c = Cond.uidIn l) ∨
      (∃ l, l ≠ [] ∧ c = Cond.projectIdIn l) := by
  by_cases h1 : 0 < spi.length <;> by_cases h2 : 0 < su.length <;>
    simp [h1, h2] at hc
  · rcases hc with rfl | rfl | rfl
    · exact Or.inl rfl
    · exact Or.inr (Or.inl ⟨su, List.ne_nil_of_length_pos h2, rfl⟩)
    · exact Or.inr (Or.inr ⟨spi, List.ne_nil_of_length_pos h1, rfl⟩)
  · rcases hc with rfl | rfl
    · exact Or.inl rfl
    · exact Or.inr (Or.inr ⟨spi, List.ne_nil_of_length_pos h1, rfl⟩)
  · rcases hc with rfl | rfl
    · exact Or.inl rfl
    · exact Or.inr (Or.inl ⟨su, List.ne_nil_of_length_pos h2, rfl⟩)
  · subst hc
    exact Or.inl rfl

/-- C7 (amended): for a non-admin user, in the task and note branches every
condition of the disjunction is backed by a nonempty set (empty-backed
conditions are omitted, with no substitute); but for every other type —
project included — an empty `sharedUids` is NOT omitted: a substitute
`uid IS NULL` clause is pushed in its place alongside the owner condition. -/
theorem empty_backed_conditions (s : Store) (u : Nat)
    (hadm : isAdmin s u = false) :
    (∀ t, t = "task" ∨ t = "note" →
      ∀ c ∈ condsOf (ownershipOrPermissionWhere s t u),
        c = Cond.userIdEq u ∨ (∃ l, l ≠ [] ∧ c = Cond.uidIn l) ∨
          (∃ l, l ≠ [] ∧ c = Cond.projectIdIn l)) ∧
    (∀ t, t ≠ "task" → t ≠ "note" →
      ownershipOrPermissionWhere s t u =
        WhereClause.disj [Cond.userIdEq u,
          if (getSharedUidsForUser s t u).length > 0 then
            Cond.uidIn (getSharedUidsForUser s t u)
          else Cond.uidNull]) := by
  constructor
  · intro t ht c hc
    rcases ht with rfl | rfl <;>
      simp [ownershipOrPermissionWhere, hadm, condsOf] at hc <;>
      exact cond_shape_of_mem u _ _ c hc
  · intro t h2 h3
    simp [ownershipOrPermissionWhere, hadm, h2, h3]

/-- C7 counterexample: user 3 of the scenario store has no project grants, so
the backing set `sharedUids` is empty; yet the project-type disjunction is
not free of substitute clauses: it carries a `uid IS NULL` clause in place of
the omitted IN clause. -/
theorem empty_backed_conditions_cex :
    getSharedUidsForUser scenarioStore "project" 3 = [] ∧
    ownershipOrPermissionWhere scenarioStore "project" 3 =
      WhereClause.disj [Cond.userIdEq 3, Cond.uidNull] ∧
    Cond.uidNull ∈ condsOf (ownershipOrPermissionWhere scenarioStore "project" 3) := by
  refine ⟨?_, ?_, ?_⟩
  · simp [getSharedUidsForUser, scenarioStore, dedupFirst]
  · simp [ownershipOrPermissionWhere, scenarioStore, isAdmin, getSharedUidsForUser,
      dedupFirst]
  · simp [ownershipOrPermissionWhere, scenarioStore, isAdmin, getSharedUidsForUser,
      dedupFirst, condsOf]

/-- C7 witness: the amended theorem's non-hierarchical part applied to an
unrecognized type with no matching grants: the substitute `uid IS NULL`
clause appears. -/
theorem empty_backed_conditions_witness :
    ownershipOrPermissionWhere ghostGrantStore "label" 1 =
      WhereClause.disj [Cond.userIdEq 1, Cond.uidNull] := by
  have h := empty_backed_conditions ghostGrantStore 1
    (by simp [isAdmin, ghostGrantStore])
  have h2 := h.2 "label" (by simp) (by simp)
  rw [h2]
  simp [getSharedUidsForUser, ghostGrantStore, dedupFirst]

/-- C10 (confirmed): when the user's project grants all point at uids with
no existing project row, `sharedProjectIds` is empty and the task and note
disjunctions contain no `project_id IN` condition at all — a dangling grant
contributes nothing rather than an empty IN clause. -/
theorem dangling_project_grants (s : Store) (u : Nat)
    (hadm : isAdmin s u = false)
    (hgrants : getSharedUidsForUser s "project" u ≠ [])
    (hdangling : ∀ uid ∈ getSharedUidsForUser s "project" u,
      ∀ p ∈ s.projects, p.uid ≠ uid) :
    sharedProjectIdList s u = [] ∧
    (∀ t, t = "task" ∨ t = "note" →
      ∀ c ∈ condsOf (ownershipOrPermissionWhere s t u),
        ∀ ids, c ≠ Cond.projectIdIn ids) := by
  have hnil : sharedProjectIdList s u = [] := by
    rw [List.eq_nil_iff_forall_not_mem]
    intro a ha
    obtain ⟨p, hpf, rfl⟩ := List.mem_map.mp ha
    have hm := List.mem_filter.mp hpf
    have hmu : p.uid ∈ getSharedUidsForUser s "project" u := by simpa using hm.2
    exact hdangling p.uid hmu p hm.1 rfl
  refine ⟨hnil, ?_⟩
  intro t ht c hc ids
  have hnil' : (List.map (fun p => p.id)
      (List.filter (fun p => decide (p.uid ∈ getSharedUidsForUser s "project" u))
        s.projects)) = [] := hnil
  rcases ht with rfl | rfl <;>
    (simp [ownershipOrPermissionWhere, hadm, condsOf] at hc
     rw [hnil'] at hc
     simp at hc) <;>
    (by_cases hsu : 0 < (getSharedUidsForUser s "task" u).length <;>
      by_cases hsn : 0 < (getSharedUidsForUser s "note" u).length <;>
      simp [hsu, hsn] at hc <;>
      rcases hc with rfl | rfl <;> simp)

/-- C10 witness: a single grant on the nonexistent project uid `x`
contributes no project-id condition. -/
theorem dangling_project_grants_witness :
    sharedProjectIdList ghostGrantStore 1 = [] := by
  have h := dangling_project_grants ghostGrantStore 1
    (by simp [isAdmin, ghostGrantStore])
    (by simp [getSharedUidsForUser, ghostGrantStore, dedupFirst])
    (by intro uid hm p hp; simp [ghostGrantStore] at hp)
  exact h.1

end Tududi
